import Mathlib

/-!
Verification of the soweego record-linkage comparators and preprocessing
helpers (`soweego/linker/feature_extraction.py`, `soweego/linker/workflow.py`)
against their natural-language specification.

Modelling conventions for the shallow embedding:
* a pandas cell holding a compared field is a `Cell`: Python `NaN`/`None`
  becomes `Cell.null`, a bare string becomes `Cell.str`, and a list of
  values (each a string or a null) becomes `Cell.list`;
* `NaN` flowing through a per-pair computation is an `Option` `none`;
  `recordlinkage.utils.fillna` becomes `Option.getD`;
* machine floats are modelled by `ℚ` (all the arithmetic the comparators
  perform — sums, division, comparison — is exact on the inputs involved);
* a per-column vectorized comparator becomes a function on a single zipped
  pair, plus a `List`-level wrapper mirroring `pd.Series.apply`.
-/

/-- A pandas cell as seen by the comparators of `feature_extraction.py`:
either a null (`NaN`/`None`), a bare string scalar, or a list whose
elements are strings or nulls. -/
inductive Cell where
  | null : Cell
  | str : String → Cell
  | list : List (Option String) → Cell
deriving DecidableEq, Repr

namespace Cell

/-- Python falsiness of a cell, as tested by `if not all(pair)` in
`_pair_has_any_null` (line 254): nulls, empty strings and empty lists are
falsy. -/
def isFalsy : Cell → Bool
  | .null => true
  | .str s => s.data.isEmpty
  | .list xs => xs.isEmpty

/-- `pd.isna` on a cell, reduced with `.all()` when the cell is a list
(lines 257–261): a null scalar is NA; a list is NA when every element is
null (vacuously so for the empty list, matching numpy's `all`). -/
def isNA : Cell → Bool
  | .null => true
  | .str _ => false
  | .list xs => xs.all Option.isNone

/-- A compared field that is missing or empty: a null, an empty list, an
all-null list, or an empty string scalar. Exactly the cells that
`_pair_has_any_null` flags on their own. -/
def missingOrEmpty (c : Cell) : Bool := c.isFalsy || c.isNA

/-- The value list iterated by `StringList.levenshtein_similarity` after
its `isinstance` normalization (lines 81–85): a bare string becomes the
one-element list, a list stays itself. `Cell.null` is unreachable there
(the null check at line 74 returns early). -/
def values : Cell → List (Option String)
  | .null => []
  | .str s => [some s]
  | .list xs => xs

/-- The value sequence iterated by `UrlList._compute_vectorized`
(lines 167–168): `for source in pair[0]` applied to a *bare string*
iterates its characters one by one (Python string iteration — there is no
list normalization in `UrlList`); a list is iterated as such. `Cell.null`
is unreachable (the null check at line 161 returns early). -/
def urlValues : Cell → List (Option String)
  | .null => []
  | .str s => s.data.map fun c => some (String.mk [c])
  | .list xs => xs

end Cell

/-- `feature_extraction._pair_has_any_null` (lines 253–266): true when
either side of the zipped pair is falsy or entirely NA. -/
def pairHasAnyNull (s t : Cell) : Bool :=
  s.isFalsy || t.isFalsy || s.isNA || t.isNA

/-- Cross product of two lists through `f`, in the nesting order of the
comparators' `for source in ...: for target in ...:` double loop. -/
def crossWith (f : α → β → γ) (A : List α) (B : List β) : List γ :=
  A.flatMap fun a => B.map fun b => f a b

/-- `np.average` over a list of scores in which `none` stands for a `NaN`
score: the empty list and any `NaN` yield `NaN` (`none`), otherwise the
arithmetic mean. -/
def optAverage (scores : List (Option ℚ)) : Option ℚ :=
  if scores.length = 0 then none
  else if scores.any Option.isNone then none
  else some ((scores.map fun x => x.getD 0).sum / (scores.length : ℚ))

/-- Levenshtein edit distance between two character lists, the measure
computed by `jellyfish.levenshtein_distance` on the two strings: unit
cost for insertion, deletion and substitution. -/
def levenshtein_distance : List Char → List Char → ℕ
  | [], ys => ys.length
  | x :: xs, [] => (x :: xs).length
  | x :: xs, y :: ys =>
    if x = y then levenshtein_distance xs ys
    else 1 + min (levenshtein_distance xs ys)
              (min (levenshtein_distance (x :: xs) ys)
                   (levenshtein_distance xs (y :: ys)))
termination_by xs ys => xs.length + ys.length
decreasing_by
  all_goals simp [List.length_cons]
  all_goals omega

/-- `jellyfish.levenshtein_distance` on two strings. -/
def levString (a b : String) : ℕ := levenshtein_distance a.data b.data

/-- One iteration of the inner loop of `levenshtein_similarity`
(lines 87–97): for two proper strings the normalized score
`1 - distance / max(len, len)` — which is `NaN` (`none`) when both strings
are empty, exactly as `0 / np.max([0, 0])` is in numpy; a null on either
side raises `TypeError` inside `jellyfish` and is caught, appending the
configured `missing_value`. -/
def pairScore (mv : ℚ) : Option String → Option String → Option ℚ
  | some a, some b =>
    if max a.length b.length = 0 then none
    else some (1 - (levString a b : ℚ) / ((max a.length b.length : ℕ) : ℚ))
  | _, _ => some mv

/-- `StringList.levenshtein_similarity` restricted to one zipped pair
(`_levenshtein_apply`, lines 73–99): `NaN` (`none`) when the pair has any
null side, otherwise the `np.average` of the pairwise scores over the
cross product of the two (normalized) value lists. -/
def levenshtein_similarity (mv : ℚ) (s t : Cell) : Option ℚ :=
  if pairHasAnyNull s t then none
  else optAverage (crossWith (pairScore mv) s.values t.values)

/-- `StringList._compute_vectorized` (lines 51–65) restricted to one pair,
for the `levenshtein` algorithm: the similarity is filled with
`missing_value` (`fillna`), then binarized against the threshold when one
is configured (`threshold=None` by default and in `workflow.extract_features`). -/
def stringListCompute (mv : ℚ) (threshold : Option ℚ) (s t : Cell) : ℚ :=
  let filled := (levenshtein_similarity mv s t).getD mv
  match threshold with
  | none => filled
  | some θ => if θ ≤ filled then 1 else 0

/-- `StringList._compute_vectorized` over two whole columns
(`paired = pd.Series(list(zip(...)))` followed by `.apply`). -/
def stringListComputeVectorized (mv : ℚ) (threshold : Option ℚ)
    (source target : List Cell) : List ℚ :=
  (source.zip target).map fun p => stringListCompute mv threshold p.1 p.2

/-- The score appended for one (source, target) URL pair by
`UrlList._compute_vectorized` (lines 169–175): `missing_value` when either
value is null, `agree_value` on exact equality, `disagree_value` otherwise. -/
def urlScore (agree disagree mv : ℚ) : Option String → Option String → ℚ
  | none, _ => mv
  | some _, none => mv
  | some a, some b => if a = b then agree else disagree

/-- `UrlList._compute_vectorized`'s `exact_apply` (lines 160–176) on one
zipped pair: `NaN` (`none`) when the pair has any null side, otherwise the
`np.average` of the pairwise exact-match scores over the cross product of
the two iterated value sequences. -/
def exactApply (agree disagree mv : ℚ) (s t : Cell) : Option ℚ :=
  if pairHasAnyNull s t then none
  else optAverage
    (crossWith (fun a b => some (urlScore agree disagree mv a b)) s.urlValues t.urlValues)

/-- `UrlList._compute_vectorized` restricted to one pair, including the
final `fillna(..., self.missing_value)` (line 178). -/
def urlListCompute (agree disagree mv : ℚ) (s t : Cell) : ℚ :=
  (exactApply agree disagree mv s t).getD mv

/-- `UrlList._compute_vectorized` over two whole columns. -/
def urlListComputeVectorized (agree disagree mv : ℚ)
    (source target : List Cell) : List ℚ :=
  (source.zip target).map fun p => urlListCompute agree disagree mv p.1 p.2

/-- The year/month/day fields read off a `pd.Period` by
`DateCompare.check_equality` (lines 237–244). -/
structure PeriodYMD where
  year : Int
  month : Int
  day : Int
deriving DecidableEq, Repr

/-- The `similarity` accumulated inside `DateCompare.check_equality`
(lines 236–244): +1 for equal years, +1 more for equal months only when
the years match, +1 more for equal days only when the months also match.
The Python method computes this value and then falls off the end — it is
never returned. -/
def dateCascadeSimilarity (s t : PeriodYMD) : ℕ :=
  if s.year = t.year then
    1 + (if s.month = t.month then
           1 + (if s.day = t.day then 1 else 0)
         else 0)
  else 0

/-- `DateCompare.check_equality` as written (lines 200–244): the cascade
`similarity` is computed into a local variable and the function returns
`None` (no `return` statement). -/
def check_equality (s t : PeriodYMD) : Option ℕ :=
  let _similarity := dateCascadeSimilarity s t
  none

/-- `DateCompare._compute_vectorized` (lines 197–250): it zips the two
columns and defines `check_equality`, but never applies it — the method
builds `c = pd.Series()` and returns that empty series whatever the
input columns are. -/
def dateCompareVectorized (source target : List (Option PeriodYMD)) : List ℚ :=
  let _paired := source.zip target
  []

/-!
Embedding of the `workflow.py` helpers named by the claims.
-/

/-- A cell of a preprocessed table in `workflow.py`: null, a string, a
number, a parsed date, or a list of cells. The single-value pull-out step
(`_pull_out_from_single_value_list`) acts on any such cell. -/
inductive PCell where
  | null : PCell
  | str : String → PCell
  | num : ℚ → PCell
  | date : PeriodYMD → PCell
  | list : List PCell → PCell

/-- The lambda inside `workflow._pull_out_from_single_value_list`
(lines 322–323): a cell that is a list of exactly one element becomes that
bare element; every other cell is returned unchanged. -/
def pullOut : PCell → PCell
  | .list [x] => x
  | c => c

/-- `workflow._pull_out_from_single_value_list` (lines 320–323):
`df.applymap` applies the pull-out lambda to every cell of the table. -/
def pullOutFromSingleValueList (df : List (List PCell)) : List (List PCell) :=
  df.map fun row => row.map pullOut

/-- Modelled from the spec: `soweego.wikidata.vocabulary` is not among the
provided sources. The spec fixes a date-precision ordinal scale — year,
month, day, hour, minute, second, with sub-year granularities (decades
down to billion years) collapsed to year — which is the Wikidata
precision coding: `0` (billion years) up to `14` (second), with `YEAR = 9`.
`DATE_PRECISION` is the set of recognized precision codes. -/
def DATE_PRECISION : List ℕ := [0, 1, 2, 3, 4, 5, 6, 7, 8, 9, 10, 11, 12, 13, 14]

/-- Modelled from the spec: the Wikidata precision code for year. -/
def YEAR : ℕ := 9

/-- Modelled from the spec: the Wikidata precision code for month. -/
def MONTH : ℕ := 10

/-- Modelled from the spec: the Wikidata precision code for day. -/
def DAY : ℕ := 11

/-- Modelled from the spec: the Wikidata precision code for hour. -/
def HOUR : ℕ := 12

/-- Modelled from the spec: the Wikidata precision code for minute. -/
def MINUTE : ℕ := 13

/-- Modelled from the spec: the Wikidata precision code for second. -/
def SECOND : ℕ := 14

/-- A `pd.Period` as built by `workflow._parse_dates_list`, modelled as
the (possibly truncated) date string handed to the `pd.Period`
constructor. The construction is assumed to succeed on the well-formed
`YYYY-MM-DDThh:mm:ssZ` strings this code receives; the
`except ValueError` skip of a genuinely unparseable string in the
unrecognized-precision branch (lines 302–307) is not modelled. -/
structure Period where
  raw : String
deriving DecidableEq, Repr

/-- One iteration of the loop in `workflow._parse_dates_list`
(lines 277–307): a (date, precision) entry with a null component is
skipped (`none`); a recognized precision truncates the date string to the
matching granularity, with every precision coarser than year (decades to
billion years) falling back to the year prefix `date[:4]`; an
*unrecognized* precision parses the full date string unchanged. -/
def parseDateEntry (date : Option String) (precision : Option ℕ) : Option Period :=
  match date, precision with
  | some d, some p =>
    if p ∈ DATE_PRECISION then
      if p < YEAR then some ⟨d.take 4⟩
      else if p = YEAR then some ⟨d.take 4⟩
      else if p = MONTH then some ⟨d.take 7⟩
      else if p = DAY then some ⟨d.take 10⟩
      else if p = HOUR then some ⟨d.take 13⟩
      else if p = MINUTE then some ⟨d.take 16⟩
      else some ⟨d⟩
    else some ⟨d⟩
  | _, _ => none

/-- `workflow._parse_dates_list` (lines 274–311): parse every non-null
(date, precision) entry in order, returning `NaN` (`none`) when nothing
was parsed and the list of `pd.Period`s otherwise. -/
def parseDatesList (datesList : List (Option String × Option ℕ)) : Option (List Period) :=
  let dates := datesList.filterMap fun e => parseDateEntry e.1 e.2
  if dates = [] then none else some dates

/-- The classifier classes of the `recordlinkage` library that can be
passed to `workflow.init_model` (the function compares its argument
against `rl.NaiveBayesClassifier` and `rl.SVMClassifier` by identity). -/
inductive RLClassifier where
  | naiveBayes
  | logisticRegression
  | svm
  | kMeans
  | ecm
deriving DecidableEq, Repr

/-- The fitted-model value produced by `workflow.init_model` in its only
constructing branch: a `rl.NaiveBayesClassifier(binarize=binarize)`. -/
structure NaiveBayesModel where
  binarize : ℚ
deriving DecidableEq, Repr

/-- Outcome of `workflow.init_model`: a model, or one of the two ways the
function fails. -/
inductive InitModelResult where
  | ok : NaiveBayesModel → InitModelResult
  | notImplementedError : InitModelResult
  | unboundLocalError : InitModelResult
deriving DecidableEq, Repr

/-- `workflow.init_model` (lines 415–422): naive Bayes builds the model;
SVM raises `NotImplementedError`; any other classifier falls through both
branches and reaches `return model` with the local `model` never assigned,
which raises `UnboundLocalError` (a `NameError`, not a
`NotImplementedError`). -/
def init_model (classifier : RLClassifier) (binarize : ℚ) : InitModelResult :=
  match classifier with
  | .naiveBayes => .ok ⟨binarize⟩
  | .svm => .notImplementedError
  | _ => .unboundLocalError

/-!
Helper lemmas about the embedded operations.
-/

theorem levenshtein_distance_comm_aux :
    ∀ n xs ys, xs.length + ys.length ≤ n →
      levenshtein_distance xs ys = levenshtein_distance ys xs := by
  intro n
  induction n with
  | zero =>
    intro xs ys h
    match xs, ys with
    | [], [] => rfl
    | x :: xs, _ => simp at h
    | [], y :: ys => simp at h
  | succ n ih =>
    intro xs ys h
    match xs, ys with
    | [], [] => rfl
    | x :: xs, [] => simp [levenshtein_distance]
    | [], y :: ys => simp [levenshtein_distance]
    | x :: xs, y :: ys =>
      simp only [List.length_cons] at h
      have h1 : xs.length + ys.length ≤ n := by omega
      have h2 : (x :: xs).length + ys.length ≤ n := by simp; omega
      have h3 : xs.length + (y :: ys).length ≤ n := by simp; omega
      rw [levenshtein_distance, levenshtein_distance]
      by_cases hxy : x = y
      · rw [if_pos hxy, if_pos hxy.symm, ih xs ys h1]
      · rw [if_neg hxy, if_neg (fun hyx => hxy hyx.symm),
          ih xs ys h1, ih (x :: xs) ys h2, ih xs (y :: ys) h3,
          Nat.min_comm (levenshtein_distance ys (x :: xs))
            (levenshtein_distance (y :: ys) xs)]

theorem levenshtein_distance_comm (xs ys : List Char) :
    levenshtein_distance xs ys = levenshtein_distance ys xs :=
  levenshtein_distance_comm_aux (xs.length + ys.length) xs ys le_rfl

theorem levString_comm (a b : String) : levString a b = levString b a :=
  levenshtein_distance_comm a.data b.data

theorem pairScore_comm (mv : ℚ) (a b : Option String) :
    pairScore mv a b = pairScore mv b a := by
  cases a with
  | none => cases b <;> rfl
  | some a =>
    cases b with
    | none => rfl
    | some b => simp [pairScore, levString_comm a b, Nat.max_comm a.length b.length]

theorem map_crossWith (g : γ → δ) (f : α → β → γ) (A : List α) (B : List β) :
    (crossWith f A B).map g = crossWith (fun a b => g (f a b)) A B := by
  unfold crossWith
  induction A with
  | nil => rfl
  | cons a A ih => simp [List.flatMap_cons, List.map_map, Function.comp, ih]

theorem crossWith_map_map (f : γ → δ → ε) (g : α → γ) (h : β → δ)
    (A : List α) (B : List β) :
    crossWith f (A.map g) (B.map h) = crossWith (fun a b => f (g a) (h b)) A B := by
  unfold crossWith
  induction A with
  | nil => rfl
  | cons a A ih =>
    simp only [List.map_cons, List.flatMap_cons, List.map_map, Function.comp_def] at ih ⊢
    rw [ih]

theorem length_crossWith (f : α → β → γ) (A : List α) (B : List β) :
    (crossWith f A B).length = A.length * B.length := by
  unfold crossWith
  induction A with
  | nil => simp
  | cons a A ih =>
    simp [List.flatMap_cons, ih]
    ring

theorem crossWith_congr_mem {f g : α → β → γ} {A : List α} {B : List β}
    (h : ∀ a ∈ A, ∀ b ∈ B, f a b = g a b) : crossWith f A B = crossWith g A B := by
  induction A with
  | nil => rfl
  | cons a A ih =>
    simp only [crossWith, List.flatMap_cons]
    rw [List.map_congr_left fun b hb => h a (List.mem_cons_self a A) b hb]
    have := ih fun a ha b hb => h a (List.mem_cons_of_mem _ ha) b hb
    simp only [crossWith] at this
    rw [this]

theorem any_crossWith (p : γ → Bool) (f : α → β → γ) (A : List α) (B : List β) :
    (crossWith f A B).any p = true ↔ ∃ a ∈ A, ∃ b ∈ B, p (f a b) = true := by
  simp [crossWith]

theorem listSumMapAdd (g h : β → ℚ) (B : List β) :
    (B.map fun b => g b + h b).sum = (B.map g).sum + (B.map h).sum := by
  induction B with
  | nil => simp
  | cons b B ih => simp [ih]; ring

theorem sum_crossWith_eq (f : α → β → ℚ) (A : List α) (B : List β) :
    (crossWith f A B).sum = (A.map fun a => (B.map (f a)).sum).sum := by
  unfold crossWith
  induction A with
  | nil => rfl
  | cons a A ih => simp [List.flatMap_cons, List.sum_append, ih]

theorem sum_map_swap (f : α → β → ℚ) (A : List α) (B : List β) :
    (A.map fun a => (B.map (f a)).sum).sum
      = (B.map fun b => (A.map fun a => f a b).sum).sum := by
  induction A with
  | nil => simp
  | cons a A ih =>
    simp only [List.map_cons, List.sum_cons, ih]
    rw [← listSumMapAdd]

theorem sum_crossWith_swap (f : α → β → ℚ) (A : List α) (B : List β) :
    (crossWith f A B).sum = (crossWith (fun b a => f a b) B A).sum := by
  rw [sum_crossWith_eq, sum_crossWith_eq, sum_map_swap]

theorem optAverage_crossWith_swap (f : α → β → Option ℚ) (A : List α) (B : List β) :
    optAverage (crossWith f A B) = optAverage (crossWith (fun b a => f a b) B A) := by
  have hany : (crossWith f A B).any Option.isNone
      = (crossWith (fun b a => f a b) B A).any Option.isNone := by
    rw [Bool.eq_iff_iff, any_crossWith, any_crossWith]
    exact ⟨fun ⟨a, ha, b, hb, hp⟩ => ⟨b, hb, a, ha, hp⟩,
           fun ⟨b, hb, a, ha, hp⟩ => ⟨a, ha, b, hb, hp⟩⟩
  have hsum : ((crossWith f A B).map fun x => x.getD 0).sum
      = ((crossWith (fun b a => f a b) B A).map fun x => x.getD 0).sum := by
    rw [map_crossWith, map_crossWith, sum_crossWith_swap]
  unfold optAverage
  rw [hany, hsum, length_crossWith, length_crossWith, Nat.mul_comm]

theorem mapSome_isEmpty_false {A : List String} (hA : A ≠ []) :
    (A.map some : List (Option String)).isEmpty = false := by
  cases A with
  | nil => exact absurd rfl hA
  | cons a A => rfl

theorem mapSome_all_isNone_false {A : List String} (hA : A ≠ []) :
    (A.map (some : String → Option String)).all Option.isNone = false := by
  cases A with
  | nil => exact absurd rfl hA
  | cons a A => rfl

theorem pairHasAnyNull_mapSome_false {A B : List String} (hA : A ≠ []) (hB : B ≠ []) :
    pairHasAnyNull (Cell.list (A.map some)) (Cell.list (B.map some)) = false := by
  unfold pairHasAnyNull
  simp only [Cell.isFalsy, Cell.isNA]
  rw [mapSome_isEmpty_false hA, mapSome_isEmpty_false hB,
    mapSome_all_isNone_false hA, mapSome_all_isNone_false hB]
  rfl

theorem optAverage_crossWith_some (g : α → β → ℚ) (A : List α) (B : List β)
    (hA : A ≠ []) (hB : B ≠ []) :
    optAverage (crossWith (fun a b => some (g a b)) A B)
      = some ((crossWith g A B).sum / ((A.length * B.length : ℕ) : ℚ)) := by
  have hne : A.length * B.length ≠ 0 :=
    Nat.mul_ne_zero (fun h0 => hA (List.length_eq_zero.mp h0))
      (fun h0 => hB (List.length_eq_zero.mp h0))
  have hany : (crossWith (fun a b => some (g a b)) A B).any Option.isNone = false := by
    cases hx : (crossWith (fun a b => some (g a b)) A B).any Option.isNone with
    | false => rfl
    | true =>
      rw [any_crossWith] at hx
      obtain ⟨a, _, b, _, hp⟩ := hx
      simp at hp
  have hmap : (crossWith (fun a b => some (g a b)) A B).map (fun x => x.getD 0)
      = crossWith g A B := by
    rw [map_crossWith]
    rfl
  unfold optAverage
  rw [length_crossWith, hany, hmap, if_neg hne]
  simp

theorem sum_crossWith_zero (A : List α) (B : List β) :
    (crossWith (fun _ _ => (0:ℚ)) A B).sum = 0 := by
  rw [sum_crossWith_eq]
  simp

/-!
The claims.
-/

/-- C1: for every candidate pair in which either side's compared field is
missing or empty, both the string-list comparator (with its default
`threshold=None` configuration, the one `workflow.extract_features` uses)
and the URL-list comparator return exactly the configured `missing_value`
— a defined numeric output, never a `NaN` and never an exception. -/
theorem missing_fills_default (mv agree disagree : ℚ) (s t : Cell)
    (h : s.missingOrEmpty = true ∨ t.missingOrEmpty = true) :
    stringListCompute mv none s t = mv ∧ urlListCompute agree disagree mv s t = mv := by
  have hp : pairHasAnyNull s t = true := by
    unfold pairHasAnyNull
    rcases h with h | h <;> simp only [Cell.missingOrEmpty, Bool.or_eq_true] at h <;>
      rcases h with h | h <;> simp [h]
  constructor
  · simp [stringListCompute, levenshtein_similarity, hp]
  · simp [urlListCompute, exactApply, hp]

theorem missing_fills_default_witness :
    stringListCompute 7 none Cell.null (Cell.list [some ("x")]) = 7
  ∧ urlListCompute 1 0 7 Cell.null (Cell.list [some ("x")]) = 7 :=
  missing_fills_default 7 1 0 Cell.null (Cell.list [some ("x")]) (Or.inl (by decide))

/-- C3: the date comparator is supposed to produce a graduated cascade
score (year, then month only on equal years, then day only on equal
months) for every pair of non-null dates, but `_compute_vectorized`
returns the empty series whatever its input and never applies
`check_equality`, which itself computes the cascade into a discarded local
and returns `None`. At the failing input below the intended cascade value
is 3 (full agreement), 1 (year-only agreement) and 0 (year disagreement)
respectively, while the code produces no score at all. -/
theorem date_compare_returns_empty :
    dateCompareVectorized [some ⟨1990, 11, 6⟩] [some ⟨1990, 11, 6⟩] = ([] : List ℚ)
  ∧ check_equality ⟨1990, 11, 6⟩ ⟨1990, 11, 6⟩ = none
  ∧ dateCascadeSimilarity ⟨1990, 11, 6⟩ ⟨1990, 11, 6⟩ = 3
  ∧ dateCascadeSimilarity ⟨1990, 11, 6⟩ ⟨1990, 12, 31⟩ = 1
  ∧ dateCascadeSimilarity ⟨1990, 11, 6⟩ ⟨1991, 11, 6⟩ = 0 :=
  ⟨rfl, rfl, by decide, by decide, by decide⟩

/-- C5: the single-value pull-out step maps a one-element list cell to its
bare element, leaves every cell that is not a one-element list unchanged
(in particular a two-element list stays a two-element list), and
`_pull_out_from_single_value_list` applies exactly this map to every cell
of the table. -/
theorem pull_out_single_value (x y c : PCell) (h : ∀ z, c ≠ PCell.list [z]) :
    pullOut (PCell.list [x]) = x
  ∧ pullOut c = c
  ∧ pullOut (PCell.list [x, y]) = PCell.list [x, y]
  ∧ pullOutFromSingleValueList [[PCell.list [x], c]] = [[x, c]] := by
  have h2 : pullOut c = c := by
    cases c with
    | null => rfl
    | str s => rfl
    | num q => rfl
    | date d => rfl
    | list xs =>
      cases xs with
      | nil => rfl
      | cons z zs =>
        cases zs with
        | nil => exact absurd rfl (h z)
        | cons w ws => rfl
  exact ⟨rfl, h2, rfl, by simp [pullOutFromSingleValueList, pullOut, h2]⟩

theorem pull_out_single_value_witness :
    pullOut (PCell.list [PCell.str ("a")]) = PCell.str ("a")
  ∧ pullOut (PCell.str ("c")) = PCell.str ("c")
  ∧ pullOut (PCell.list [PCell.str ("a"), PCell.str ("b")])
      = PCell.list [PCell.str ("a"), PCell.str ("b")]
  ∧ pullOutFromSingleValueList [[PCell.list [PCell.str ("a")], PCell.str ("c")]]
      = [[PCell.str ("a"), PCell.str ("c")]] :=
  pull_out_single_value (PCell.str ("a")) (PCell.str ("b")) (PCell.str ("c"))
    (fun _ hz => PCell.noConfusion hz)

/-- C6 counterexample: the claim says every classifier kind other than
naive Bayes fails with a `NotImplementedError`-class error, but
`init_model` only raises `NotImplementedError` for the SVM kind; for
`rl.LogisticRegressionClassifier` it falls through both branches and hits
`return model` with `model` unbound — an `UnboundLocalError`
(`NameError`-class), not a `NotImplementedError`. -/
theorem init_model_counterexample :
    init_model RLClassifier.logisticRegression 0 = InitModelResult.unboundLocalError
  ∧ InitModelResult.unboundLocalError ≠ InitModelResult.notImplementedError :=
  ⟨rfl, fun h => InitModelResult.noConfusion h⟩

/-- C6 amended: no classifier kind other than naive Bayes ever yields a
model (so nothing wrong is silently returned), but only the SVM kind
fails with `NotImplementedError`; every other non-naive-Bayes kind fails
with an unbound-local (`NameError`-class) error instead. -/
theorem init_model_amended (c : RLClassifier) (b : ℚ)
    (hc : c ≠ RLClassifier.naiveBayes) :
    (∀ m, init_model c b ≠ InitModelResult.ok m)
  ∧ (init_model c b = InitModelResult.notImplementedError ↔ c = RLClassifier.svm) := by
  cases c with
  | naiveBayes => exact absurd rfl hc
  | _ => exact ⟨fun m h => InitModelResult.noConfusion h, by simp [init_model]⟩

theorem init_model_amended_witness :
    (∀ m, init_model RLClassifier.svm 0 ≠ InitModelResult.ok m)
  ∧ (init_model RLClassifier.svm 0 = InitModelResult.notImplementedError
       ↔ RLClassifier.svm = RLClassifier.svm) :=
  init_model_amended RLClassifier.svm 0 (by decide)

/-- C7 counterexample: the claim says an *unrecognized* precision also
falls back to year-level truncation, but `_parse_dates_list` hands the
full date string to `pd.Period` in that branch: with precision 15 the
parsed value keeps the whole `1990-11-06T00:00:00Z` string, which differs
from the year truncation `1990`. -/
theorem parse_dates_counterexample :
    parseDatesList [(some ("1990-11-06T00:00:00Z"), some 15)]
        = some [⟨"1990-11-06T00:00:00Z"⟩]
  ∧ (Period.mk ("1990-11-06T00:00:00Z")
       ≠ Period.mk (("1990-11-06T00:00:00Z").take 4)) :=
  ⟨by decide, by decide⟩

/-- C7 amended: a (date, precision) entry whose precision is a recognized
level coarser than year (decades to billion years) falls back to
year-level truncation of the date string; an entry whose precision is not
a recognized level is parsed from the full date string unchanged (skipped
only if `pd.Period` cannot parse it, a case outside this model). -/
theorem parse_dates_amended (d : String) (p q : ℕ)
    (hp : p ∈ DATE_PRECISION) (hpy : p < YEAR) (hq : q ∉ DATE_PRECISION) :
    parseDateEntry (some d) (some p) = some ⟨d.take 4⟩
  ∧ parseDateEntry (some d) (some q) = some ⟨d⟩ := by
  constructor
  · simp [parseDateEntry, hp, hpy]
  · simp [parseDateEntry, hq]

theorem parse_dates_amended_witness :
    parseDateEntry (some ("1880-01-01T00:00:00Z")) (some 8)
        = some ⟨("1880-01-01T00:00:00Z").take 4⟩
  ∧ parseDateEntry (some ("1880-01-01T00:00:00Z")) (some 99)
        = some ⟨"1880-01-01T00:00:00Z"⟩ :=
  parse_dates_amended ("1880-01-01T00:00:00Z") 8 99 (by decide) (by decide) (by decide)

/-- C10: whenever the string-list comparator is configured with a
non-`None` threshold, its output is always exactly 0 or 1, and it is 1
precisely when the missing-value-filled similarity reaches the threshold. -/
theorem threshold_binarizes (mv θ : ℚ) (s t : Cell) :
    (stringListCompute mv (some θ) s t = 0 ∨ stringListCompute mv (some θ) s t = 1)
  ∧ (stringListCompute mv (some θ) s t = 1
       ↔ θ ≤ (levenshtein_similarity mv s t).getD mv) := by
  unfold stringListCompute
  by_cases h : θ ≤ (levenshtein_similarity mv s t).getD mv
  · simp [h]
  · simp [h]

/-- C2: for every candidate pair whose two sides are non-empty lists of
proper strings, the Levenshtein string-list similarity equals the
arithmetic mean, over the cross product of the two value lists, of
`1 - edit_distance(a, b) / max(len(a), len(b))`. The hypothesis `h`
excludes cross pairs of two empty strings, on which the claimed ratio
itself (and the float the code computes) is undefined (`0 / 0`). -/
theorem levenshtein_cross_mean (mv : ℚ) (A B : List String)
    (hA : A ≠ []) (hB : B ≠ [])
    (h : ∀ a ∈ A, ∀ b ∈ B, max a.length b.length ≠ 0) :
    stringListCompute mv none (Cell.list (A.map some)) (Cell.list (B.map some))
      = (crossWith
            (fun a b => 1 - (levString a b : ℚ) / ((max a.length b.length : ℕ) : ℚ))
            A B).sum
          / ((A.length * B.length : ℕ) : ℚ) := by
  have hnull := pairHasAnyNull_mapSome_false hA hB
  have hsim : levenshtein_similarity mv (Cell.list (A.map some)) (Cell.list (B.map some))
      = some ((crossWith
            (fun a b => 1 - (levString a b : ℚ) / ((max a.length b.length : ℕ) : ℚ))
            A B).sum
          / ((A.length * B.length : ℕ) : ℚ)) := by
    unfold levenshtein_similarity
    rw [hnull]
    simp only [Bool.false_eq_true, if_false, Cell.values]
    rw [crossWith_map_map]
    rw [show crossWith (fun a b => pairScore mv (some a) (some b)) A B
          = crossWith
              (fun a b => some
                ((1:ℚ) - (levString a b : ℚ) / ((max a.length b.length : ℕ) : ℚ)))
              A B from
        crossWith_congr_mem fun a ha b hb => by simp [pairScore, h a ha b hb]]
    rw [optAverage_crossWith_some _ A B hA hB]
  unfold stringListCompute
  rw [hsim]
  rfl

theorem levenshtein_cross_mean_witness :
    stringListCompute 0 none (Cell.list [some ("ab")]) (Cell.list [some ("b")])
      = (crossWith
            (fun a b => 1 - (levString a b : ℚ) / ((max a.length b.length : ℕ) : ℚ))
            ["ab"] ["b"]).sum
          / (((["ab"].length * ["b"].length : ℕ)) : ℚ) :=
  levenshtein_cross_mean 0 ["ab"] ["b"] (by decide) (by decide) (by decide)

/-- C4: over two non-empty lists of URLs (no nulls), with the default
agree/disagree/missing values (1, 0, 0), the URL-list similarity is the
average of the pairwise exact-match indicators over the cross product of
the two URL sets; in particular it is exactly 1 when both sides hold the
same single URL, and exactly 0 when the two sets are disjoint. -/
theorem url_cross_mean (A B : List String) (hA : A ≠ []) (hB : B ≠ []) :
    urlListCompute 1 0 0 (Cell.list (A.map some)) (Cell.list (B.map some))
        = (crossWith (fun a b => if a = b then (1:ℚ) else 0) A B).sum
            / ((A.length * B.length : ℕ) : ℚ)
  ∧ ((∃ u, A = [u] ∧ B = [u]) →
        urlListCompute 1 0 0 (Cell.list (A.map some)) (Cell.list (B.map some)) = 1)
  ∧ ((∀ a ∈ A, a ∉ B) →
        urlListCompute 1 0 0 (Cell.list (A.map some)) (Cell.list (B.map some)) = 0) := by
  have hnull := pairHasAnyNull_mapSome_false hA hB
  have hmain : urlListCompute 1 0 0 (Cell.list (A.map some)) (Cell.list (B.map some))
      = (crossWith (fun a b => if a = b then (1:ℚ) else 0) A B).sum
          / ((A.length * B.length : ℕ) : ℚ) := by
    unfold urlListCompute exactApply
    rw [hnull]
    simp only [Bool.false_eq_true, if_false, Cell.urlValues]
    rw [crossWith_map_map]
    rw [show crossWith (fun a b => some (urlScore 1 0 0 (some a) (some b))) A B
          = crossWith (fun a b => some (if a = b then (1:ℚ) else 0)) A B from rfl]
    rw [optAverage_crossWith_some _ A B hA hB]
    rfl
  refine ⟨hmain, ?_, ?_⟩
  · rintro ⟨u, rfl, rfl⟩
    rw [hmain]
    norm_num [crossWith]
  · intro hd
    rw [hmain]
    rw [show crossWith (fun a b => if a = b then (1:ℚ) else 0) A B
          = crossWith (fun _ _ => (0:ℚ)) A B from
        crossWith_congr_mem fun a ha b hb =>
          if_neg fun (he : a = b) => hd a ha (he ▸ hb)]
    rw [sum_crossWith_zero]
    exact zero_div _

theorem url_cross_mean_witness :
    (urlListCompute 1 0 0 (Cell.list [some ("u")]) (Cell.list [some ("u")])
        = (crossWith (fun a b => if a = b then (1:ℚ) else 0) ["u"] ["u"]).sum
            / (((["u"].length * ["u"].length : ℕ)) : ℚ))
  ∧ ((∃ v, ["u"] = [v] ∧ ["u"] = [v]) →
        urlListCompute 1 0 0 (Cell.list (["u"].map some)) (Cell.list (["u"].map some)) = 1)
  ∧ ((∀ a ∈ ["u"], a ∉ ["u"]) →
        urlListCompute 1 0 0 (Cell.list (["u"].map some)) (Cell.list (["u"].map some)) = 0) :=
  url_cross_mean ["u"] ["u"] (by decide) (by decide)

/-- C9: the string-list comparator is symmetric — scoring (A, B) yields
exactly the same value as scoring (B, A), for any two cells, any
missing value and any threshold configuration. -/
theorem string_similarity_symm (mv : ℚ) (θ : Option ℚ) (s t : Cell) :
    stringListCompute mv θ s t = stringListCompute mv θ t s := by
  have hnull : pairHasAnyNull s t = pairHasAnyNull t s := by
    unfold pairHasAnyNull
    cases hsf : s.isFalsy <;> cases htf : t.isFalsy <;>
      cases hsn : s.isNA <;> cases htn : t.isNA <;> rfl
  have hsim : levenshtein_similarity mv s t = levenshtein_similarity mv t s := by
    unfold levenshtein_similarity
    rw [hnull]
    cases hc : pairHasAnyNull t s with
    | true => rfl
    | false =>
      simp only [Bool.false_eq_true, if_false]
      rw [optAverage_crossWith_swap]
      rw [show crossWith (fun b a => pairScore mv a b) t.values s.values
            = crossWith (pairScore mv) t.values s.values from
          crossWith_congr_mem fun a _ b _ => pairScore_comm mv b a]
  unfold stringListCompute
  rw [hsim]

/-- C8 counterexample: the claim says every comparator normalizes a bare
scalar to a single-element list; the URL-list comparator does not — with a
bare string on one side Python iterates the string character by character,
so the pair (`"ab"`, `["ab"]`) scores 0 while the normalized pair
(`["ab"]`, `["ab"]`) scores 1. -/
theorem scalar_normalization_counterexample :
    urlListCompute 1 0 0 (Cell.str ("ab")) (Cell.list [some ("ab")]) = 0
  ∧ urlListCompute 1 0 0 (Cell.list [some ("ab")]) (Cell.list [some ("ab")]) = 1 := by
  constructor
  · norm_num [urlListCompute, exactApply, pairHasAnyNull, Cell.isFalsy, Cell.isNA,
      Cell.urlValues, crossWith, optAverage, urlScore, String.ext_iff]
  · norm_num [urlListCompute, exactApply, pairHasAnyNull, Cell.isFalsy, Cell.isNA,
      Cell.urlValues, crossWith, optAverage, urlScore]

/-- C8 amended: only the string-list comparator normalizes a bare
non-empty scalar string to a single-element list (on either side); the
URL-list comparator instead iterates the scalar's characters, comparing
each single-character string (still no exception); and the date comparator
computes no per-pair score at all. -/
theorem scalar_normalization_amended (mv agree disagree : ℚ) (θ : Option ℚ)
    (u : String) (hu : u ≠ "") (t : Cell) :
    stringListCompute mv θ (Cell.str u) t = stringListCompute mv θ (Cell.list [some u]) t
  ∧ stringListCompute mv θ t (Cell.str u) = stringListCompute mv θ t (Cell.list [some u])
  ∧ urlListCompute agree disagree mv (Cell.str u) t
      = urlListCompute agree disagree mv
          (Cell.list (u.data.map fun c => some (String.mk [c]))) t := by
  have hd : u.data ≠ [] := by
    intro h0
    exact hu (by cases u with | mk d => cases h0; rfl)
  have hF : (Cell.str u).isFalsy = false := by
    cases hdata : u.data with
    | nil => exact absurd hdata hd
    | cons c cs => simp [Cell.isFalsy, hdata]
  have hF3 : (Cell.list (u.data.map fun c => some (String.mk [c]))).isFalsy = false := by
    cases hdata : u.data with
    | nil => exact absurd hdata hd
    | cons c cs => simp [Cell.isFalsy, hdata]
  have hN3 : (Cell.list (u.data.map fun c => some (String.mk [c]))).isNA = false := by
    cases hdata : u.data with
    | nil => exact absurd hdata hd
    | cons c cs => simp [Cell.isNA, hdata]
  have e1 : levenshtein_similarity mv (Cell.str u) t
      = levenshtein_similarity mv (Cell.list [some u]) t := by
    unfold levenshtein_similarity pairHasAnyNull
    rw [hF]
    rfl
  have e2 : levenshtein_similarity mv t (Cell.str u)
      = levenshtein_similarity mv t (Cell.list [some u]) := by
    unfold levenshtein_similarity pairHasAnyNull
    rw [hF]
    rfl
  have e3 : exactApply agree disagree mv (Cell.str u) t
      = exactApply agree disagree mv
          (Cell.list (u.data.map fun c => some (String.mk [c]))) t := by
    unfold exactApply pairHasAnyNull
    rw [hF, hF3, hN3]
    rfl
  refine ⟨?_, ?_, ?_⟩
  · unfold stringListCompute
    rw [e1]
  · unfold stringListCompute
    rw [e2]
  · unfold urlListCompute
    rw [e3]

theorem scalar_normalization_amended_witness :
    stringListCompute 0 none (Cell.str ("a")) (Cell.list [some ("a")])
        = stringListCompute 0 none (Cell.list [some ("a")]) (Cell.list [some ("a")])
  ∧ stringListCompute 0 none (Cell.list [some ("a")]) (Cell.str ("a"))
        = stringListCompute 0 none (Cell.list [some ("a")]) (Cell.list [some ("a")])
  ∧ urlListCompute 1 0 0 (Cell.str ("a")) (Cell.list [some ("a")])
        = urlListCompute 1 0 0
            (Cell.list (("a" : String).data.map fun c => some (String.mk [c])))
            (Cell.list [some ("a")]) :=
  scalar_normalization_amended 0 1 0 none ("a") (by decide) (Cell.list [some ("a")])
